import Mathlib

/-!
# Verification of `build_ai_acceptance_dashboard.py`

A shallow embedding of the dashboard generator in
`src/build_ai_acceptance_dashboard.py`, together with theorems that settle
the testable properties of its specification.

Modelling conventions:
* Machine floats are idealised as `ℚ`; pandas "missing" values (`NaN`/`NaT`/
  `None`) are `Option.none`.  The source line
  `replace([np.inf, -np.inf], np.nan)` becomes the identity because `ℚ` has
  no infinities.
* Timestamps are `ℤ` (seconds since the Unix epoch, UTC); a calendar day is
  the floor division by 86400, matching pandas' UTC `resample("1D")` bins.
* External library behaviour that no claim inspects (date parsing, numeral
  parsing, `strftime`, matplotlib rendering / PNG encoding) is abstracted
  into an `Env` record of functions; the pipeline itself is concrete.
* Python dicts are modelled as association lists in insertion order, which
  is the order `json.dumps` serialises them in.
-/

namespace Dashboard

/-! ## Decimal numerals (Python `str` of integers) -/

/-- The decimal digit characters used by Python's `str` of an integer. -/
def digit_char (d : Nat) : Char :=
  match d with
  | 0 => '0' | 1 => '1' | 2 => '2' | 3 => '3' | 4 => '4'
  | 5 => '5' | 6 => '6' | 7 => '7' | 8 => '8' | 9 => '9'
  | _ => '*'

/-- Digit expansion, most-significant digit first; the fuel argument (any
bound on `n`) only makes the recursion structural. -/
def nat_to_str_aux : Nat → Nat → List Char
  | 0, _ => []
  | fuel + 1, n => if n = 0 then [] else nat_to_str_aux fuel (n / 10) ++ [digit_char (n % 10)]

/-- `str(n)` for a natural number: most-significant digit first. -/
def nat_to_str (n : Nat) : String :=
  if n = 0 then "0" else String.mk (nat_to_str_aux n n)

lemma nat_to_str_aux_eq_digits : ∀ (fuel n : Nat), n ≤ fuel →
    nat_to_str_aux fuel n = ((Nat.digits 10 n).map digit_char).reverse := by
  intro fuel
  induction fuel with
  | zero =>
    intro n hn
    interval_cases n
    simp [nat_to_str_aux]
  | succ f ih =>
    intro n hn
    by_cases h0 : n = 0
    · subst h0
      simp [nat_to_str_aux]
    · rw [nat_to_str_aux, if_neg h0]
      rw [Nat.digits_def' (b := 10) (by norm_num) (Nat.pos_of_ne_zero h0)]
      rw [List.map_cons, List.reverse_cons]
      rw [ih (n / 10) (by omega)]

lemma nat_to_str_eq_digits (n : Nat) :
    nat_to_str n = if n = 0 then "0"
      else String.mk (((Nat.digits 10 n).reverse).map digit_char) := by
  unfold nat_to_str
  by_cases h0 : n = 0
  · rw [if_pos h0, if_pos h0]
  · rw [if_neg h0, if_neg h0, nat_to_str_aux_eq_digits n n le_rfl, List.map_reverse]

/-- `str(i)` for an integer. -/
def int_to_str (i : Int) : String :=
  (if i < 0 then "-" else "") ++ nat_to_str i.natAbs

/-- Decoding inverse of `digit_char`, used only to prove injectivity. -/
def char_to_digit (c : Char) : Nat :=
  if c = '0' then 0 else if c = '1' then 1 else if c = '2' then 2
  else if c = '3' then 3 else if c = '4' then 4 else if c = '5' then 5
  else if c = '6' then 6 else if c = '7' then 7 else if c = '8' then 8
  else if c = '9' then 9 else 0

lemma char_to_digit_digit_char {d : Nat} (hd : d < 10) :
    char_to_digit (digit_char d) = d := by
  interval_cases d <;> rfl

/-- Decoder showing `nat_to_str` is injective. -/
def str_to_nat (s : String) : Nat :=
  Nat.ofDigits 10 ((s.data.map char_to_digit).reverse)

lemma str_to_nat_nat_to_str (n : Nat) : str_to_nat (nat_to_str n) = n := by
  rw [nat_to_str_eq_digits]
  unfold str_to_nat
  by_cases hn : n = 0
  · subst hn
    rfl
  · simp only [if_neg hn]
    have hmap : ((Nat.digits 10 n).reverse.map digit_char).map char_to_digit
        = (Nat.digits 10 n).reverse := by
      rw [List.map_map]
      apply List.map_congr_left ?_ |>.trans (List.map_id _)
      intro d hd
      exact char_to_digit_digit_char
        (Nat.digits_lt_base (by norm_num) (List.mem_reverse.mp hd))
    show Nat.ofDigits 10
        ((((Nat.digits 10 n).reverse.map digit_char).map char_to_digit).reverse) = n
    rw [hmap, List.reverse_reverse, Nat.ofDigits_digits]

lemma nat_to_str_inj : Function.Injective nat_to_str :=
  Function.LeftInverse.injective str_to_nat_nat_to_str

/-! ## `_slugify` (source lines 36-38) -/

/-- A character the regex class `[a-z0-9]` accepts. -/
def is_slug_char (c : Char) : Bool :=
  (decide ('a' ≤ c) && decide (c ≤ 'z')) || (decide ('0' ≤ c) && decide (c ≤ '9'))

/-- `re.sub(r"[^a-z0-9]+", "-", ·)`: each maximal run of characters outside
`[a-z0-9]` becomes a single hyphen.  The `Bool` argument records whether the
previous character belonged to such a run. -/
def collapse_runs : Bool → List Char → List Char
  | _, [] => []
  | in_run, c :: rest =>
    if is_slug_char c then c :: collapse_runs false rest
    else if in_run then collapse_runs true rest
    else '-' :: collapse_runs true rest

/-- Python `str.strip("-")`: drop leading and trailing hyphens. -/
def strip_hyphens (l : List Char) : List Char :=
  ((l.dropWhile (fun c => c == '-')).reverse.dropWhile (fun c => c == '-')).reverse

/-- `_slugify` from the source: lowercase, collapse non-alphanumeric runs to
single hyphens, strip boundary hyphens, fall back to `"repo"`. -/
def slugify (value : String) : String :=
  let slug := String.mk (strip_hyphens (collapse_runs false (value.data.map Char.toLower)))
  if slug = "" then "repo" else slug

lemma collapse_runs_chars {b : Bool} {l : List Char} :
    ∀ c ∈ collapse_runs b l, is_slug_char c ∨ c = '-' := by
  induction l generalizing b with
  | nil => simp [collapse_runs]
  | cons a t ih =>
    intro c hc
    simp only [collapse_runs] at hc
    by_cases ha : is_slug_char a
    · rw [if_pos ha] at hc
      rcases List.mem_cons.mp hc with h | h
      · exact Or.inl (h ▸ ha)
      · exact ih c h
    · rw [if_neg ha] at hc
      by_cases hb : b
      · rw [if_pos hb] at hc
        exact ih c hc
      · rw [if_neg hb] at hc
        rcases List.mem_cons.mp hc with h | h
        · exact Or.inr h
        · exact ih c h

lemma strip_hyphens_subset {l : List Char} :
    ∀ c ∈ strip_hyphens l, c ∈ l := by
  intro c hc
  unfold strip_hyphens at hc
  rw [List.mem_reverse] at hc
  have := List.dropWhile_sublist (l := (l.dropWhile (fun c => c == '-')).reverse)
    (p := fun c => c == '-')
  have hc2 := this.subset hc
  rw [List.mem_reverse] at hc2
  exact (List.dropWhile_sublist (l := l) (p := fun c => c == '-')).subset hc2

lemma strip_hyphens_head {l : List Char} {a : Char}
    (h : (strip_hyphens l).head? = some a) : a ≠ '-' := by
  unfold strip_hyphens at h
  rw [List.head?_reverse] at h
  obtain ⟨t, ht⟩ := List.dropWhile_suffix
    (l := (l.dropWhile (fun c => c == '-')).reverse) (fun c => c == '-')
  have h2 : ((l.dropWhile (fun c => c == '-')).reverse).getLast? = some a := by
    rw [← ht, List.getLast?_append, h]
    rfl
  rw [List.getLast?_reverse] at h2
  have h3 := List.head?_dropWhile_not (fun c => c == '-') l
  rw [h2] at h3
  simpa using h3

lemma strip_hyphens_last {l : List Char} {a : Char}
    (h : (strip_hyphens l).getLast? = some a) : a ≠ '-' := by
  unfold strip_hyphens at h
  rw [List.getLast?_reverse] at h
  have h3 := List.head?_dropWhile_not (fun c => c == '-')
    ((l.dropWhile (fun c => c == '-')).reverse)
  rw [h] at h3
  simpa using h3

/-- The shape of every `_slugify` result: nonempty, only `[a-z0-9-]`
characters, and no hyphen at either end. -/
def good_slug (s : String) : Prop :=
  s ≠ "" ∧ (∀ c ∈ s.data, is_slug_char c ∨ c = '-') ∧
    (∀ a, s.data.head? = some a → a ≠ '-') ∧
    (∀ a, s.data.getLast? = some a → a ≠ '-')

lemma good_slug_repo : good_slug "repo" := by
  refine ⟨by decide, ?_, ?_, ?_⟩ <;> decide

lemma good_slug_slugify (value : String) : good_slug (slugify value) := by
  unfold slugify
  by_cases h : String.mk (strip_hyphens (collapse_runs false (value.data.map Char.toLower))) = ""
  · rw [if_pos h]
    exact good_slug_repo
  · rw [if_neg h]
    refine ⟨h, ?_, ?_, ?_⟩
    · intro c hc
      exact collapse_runs_chars c (strip_hyphens_subset c hc)
    · intro a ha
      exact strip_hyphens_head ha
    · intro a ha
      exact strip_hyphens_last ha

/-! ## `_unique_id` (source lines 41-51) -/

/-- The candidate identifier the `while` loop in `_unique_id` tests for a
given numeric suffix. -/
def suffixed (candidate : String) (index : Nat) : String :=
  candidate ++ "-" ++ nat_to_str index

lemma suffixed_inj (candidate : String) {i j : Nat} (h : suffixed candidate i = suffixed candidate j) :
    i = j := by
  unfold suffixed at h
  have : nat_to_str i = nat_to_str j := by
    have hd := congrArg String.data h
    simp only [String.data_append] at hd
    have := List.append_cancel_left hd
    exact String.ext this
  exact nat_to_str_inj this

/-- The `while f"{candidate}-{index}" in used: index += 1` search, run with
enough fuel to be exhaustive. -/
def find_free_index (candidate : String) (used : Finset String) : Nat → Nat → Nat
  | 0, index => index
  | fuel + 1, index =>
    if suffixed candidate index ∈ used then find_free_index candidate used fuel (index + 1)
    else index

lemma find_free_index_spec (candidate : String) (used : Finset String) :
    ∀ fuel index, (∃ j, j < fuel ∧ suffixed candidate (index + j) ∉ used) →
      suffixed candidate (find_free_index candidate used fuel index) ∉ used := by
  intro fuel
  induction fuel with
  | zero =>
    intro index h
    obtain ⟨j, hj, _⟩ := h
    omega
  | succ n ih =>
    intro index h
    rw [find_free_index]
    by_cases hc : suffixed candidate index ∈ used
    · rw [if_pos hc]
      apply ih
      obtain ⟨j, hj, hfree⟩ := h
      cases j with
      | zero => exact absurd (by simpa using hfree) (by simp [hc])
      | succ k => exact ⟨k, by omega, by have : index + 1 + k = index + (k + 1) := by omega
                                         rw [this]; exact hfree⟩
    · rw [if_neg hc]
      exact hc

lemma exists_free_suffix (candidate : String) (used : Finset String) :
    ∃ j, j < used.card + 1 ∧ suffixed candidate (2 + j) ∉ used := by
  by_contra hall
  push_neg at hall
  have hmap : ∀ j ∈ Finset.range (used.card + 1), suffixed candidate (2 + j) ∈ used := by
    intro j hj
    exact hall j (Finset.mem_range.mp hj)
  obtain ⟨i, hi, j, hj, hne, heq⟩ :=
    Finset.exists_ne_map_eq_of_card_lt_of_maps_to
      (s := Finset.range (used.card + 1)) (t := used)
      (by simp) hmap
  have := suffixed_inj candidate heq
  omega

/-- `_unique_id` from the source.  Returns the chosen identifier together
with the updated `used` set (the Python function mutates `used` via
`used.add`). -/
def unique_id (base : String) (used : Finset String) (seed : Nat) : String × Finset String :=
  let candidate := if base = "" then "repo-" ++ nat_to_str seed else base
  if candidate ∈ used then
    let final := suffixed candidate
      (find_free_index candidate used (used.card + 1) 2)
    (final, insert final used)
  else (candidate, insert candidate used)

lemma unique_id_fresh (base : String) (used : Finset String) (seed : Nat) :
    (unique_id base used seed).1 ∉ used ∧
      (unique_id base used seed).2 = insert (unique_id base used seed).1 used := by
  unfold unique_id
  set candidate := if base = "" then "repo-" ++ nat_to_str seed else base with hc
  by_cases h : candidate ∈ used
  · rw [if_pos h]
    refine ⟨?_, rfl⟩
    apply find_free_index_spec
    obtain ⟨j, hj, hfree⟩ := exists_free_suffix candidate used
    exact ⟨j, hj, hfree⟩
  · rw [if_neg h]
    exact ⟨h, rfl⟩

/-! ## `_format_float` (source lines 54-62)

Python's `f"{x:.3f}"` on our idealised floats: three decimals.  (Python
rounds the underlying binary float half-to-even; on the rationals the
claims evaluate, no tie is hit, so `round` is a faithful model.)  `None`
and `NaN` are both `Option.none` and render as `""`. -/

/-- Zero-pad a natural below 1000 to three digits. -/
def pad3 (m : Nat) : String :=
  let s := nat_to_str m
  String.mk (List.replicate (3 - s.length) '0') ++ s

/-- `f"{q:.3f}"`. -/
def format_q3 (q : ℚ) : String :=
  let n : ℤ := round (q * 1000)
  (if n < 0 then "-" else "") ++ nat_to_str (n.natAbs / 1000) ++ "." ++ pad3 (n.natAbs % 1000)

/-- `_format_float` from the source: `""` for `None`/`NaN`, else three
decimals. -/
def format_float (v : Option ℚ) : String :=
  match v with
  | none => ""
  | some q => format_q3 q

/-! ## `html.escape` (Python standard library, used at lines 178-183, 220,
226-227) -/

/-- `html.escape(·, quote=True)` on one character. -/
def html_escape_char (c : Char) : String :=
  if c = '&' then "&amp;"
  else if c = '<' then "&lt;"
  else if c = '>' then "&gt;"
  else if c = '"' then "&quot;"
  else if c = '\'' then "&#x27;"
  else String.singleton c

/-- `"".join(ls)` — explicit concatenation, easier to reason about than
`String.join`. -/
def str_concat : List String → String
  | [] => ""
  | s :: t => s ++ str_concat t

lemma mem_str_concat : ∀ {ls : List String} {d : Char},
    d ∈ (str_concat ls).data → ∃ s ∈ ls, d ∈ s.data := by
  intro ls
  induction ls with
  | nil => intro d hd; exact absurd hd (by simp [str_concat])
  | cons s t ih =>
    intro d hd
    rw [str_concat, String.data_append] at hd
    rcases List.mem_append.mp hd with h | h
    · exact ⟨s, by simp, h⟩
    · obtain ⟨s', hs', hd'⟩ := ih h
      exact ⟨s', by simp [hs'], hd'⟩

/-- `html.escape(s, quote=True)`. -/
def html_escape (s : String) : String :=
  str_concat (s.data.map html_escape_char)

lemma html_escape_char_no_markup (c : Char) :
    ∀ d ∈ (html_escape_char c).data, d ≠ '<' ∧ d ≠ '>' ∧ d ≠ '"' ∧ d ≠ '\'' := by
  unfold html_escape_char
  split_ifs with h1 h2 h3 h4 h5 <;> intro d hd
  · have hd' : d ∈ ['&', 'a', 'm', 'p', ';'] := hd
    fin_cases hd' <;> decide
  · have hd' : d ∈ ['&', 'l', 't', ';'] := hd
    fin_cases hd' <;> decide
  · have hd' : d ∈ ['&', 'g', 't', ';'] := hd
    fin_cases hd' <;> decide
  · have hd' : d ∈ ['&', 'q', 'u', 'o', 't', ';'] := hd
    fin_cases hd' <;> decide
  · have hd' : d ∈ ['&', '#', 'x', '2', '7', ';'] := hd
    fin_cases hd' <;> decide
  · have hd' : d ∈ [c] := hd
    rcases List.mem_singleton.mp hd' with rfl
    exact ⟨h2, h3, h4, h5⟩

lemma html_escape_no_markup (s : String) :
    ∀ d ∈ (html_escape s).data, d ≠ '<' ∧ d ≠ '>' ∧ d ≠ '"' ∧ d ≠ '\'' := by
  intro d hd
  obtain ⟨s', hs', hd'⟩ := mem_str_concat hd
  obtain ⟨c, _, hc⟩ := List.mem_map.mp hs'
  exact html_escape_char_no_markup c d (hc ▸ hd')

/-! ## `json.dumps` string escaping (used at line 224) -/

/-- Lowercase hexadecimal digit. -/
def hex_digit (d : Nat) : Char :=
  match d with
  | 0 => '0' | 1 => '1' | 2 => '2' | 3 => '3' | 4 => '4'
  | 5 => '5' | 6 => '6' | 7 => '7' | 8 => '8' | 9 => '9'
  | 10 => 'a' | 11 => 'b' | 12 => 'c' | 13 => 'd' | 14 => 'e' | 15 => 'f'
  | _ => '*'

/-- Four lowercase hex digits, as in a JSON `\uXXXX` escape. -/
def hex4 (n : Nat) : String :=
  String.mk [hex_digit (n / 4096 % 16), hex_digit (n / 256 % 16),
    hex_digit (n / 16 % 16), hex_digit (n % 16)]

/-- `json.dumps` escaping of one character (`ensure_ascii=True` default).
Characters beyond the basic multilingual plane would use a surrogate pair;
that detail is simplified to one `\uXXXX` group, which no claim inspects.
Crucially, `<` and `/` are NOT escaped by `json.dumps`. -/
def json_esc_char (c : Char) : String :=
  if c = '"' then "\\\""
  else if c = '\\' then "\\\\"
  else if c = '\n' then "\\n"
  else if c = '\t' then "\\t"
  else if c = '\r' then "\\r"
  else if c = Char.ofNat 8 then "\\b"
  else if c = Char.ofNat 12 then "\\f"
  else if c.toNat < 32 || c.toNat > 126 then "\\u" ++ hex4 c.toNat
  else String.singleton c

/-- A JSON string literal for `s`. -/
def json_str (s : String) : String :=
  "\"" ++ str_concat (s.data.map json_esc_char) ++ "\""

/-! ## `.replace("</", "<\\/")` (source line 224) -/

/-- Python `str.replace("</", "<\\/")`: greedy left-to-right replacement. -/
def escape_lt_slash_list : List Char → List Char
  | [] => []
  | [c] => [c]
  | c :: d :: rest =>
    if c = '<' ∧ d = '/' then '<' :: '\\' :: '/' :: escape_lt_slash_list rest
    else c :: escape_lt_slash_list (d :: rest)

def escape_lt_slash (s : String) : String :=
  String.mk (escape_lt_slash_list s.data)

/-- Does the list contain the two-character substring `</`? -/
def has_lt_slash : List Char → Bool
  | [] => false
  | [_] => false
  | c :: d :: rest =>
    if c = '<' ∧ d = '/' then true else has_lt_slash (d :: rest)

lemma escape_lt_slash_list_head? : ∀ l : List Char,
    (escape_lt_slash_list l).head? = l.head?
  | [] => rfl
  | [_] => rfl
  | c :: d :: rest => by
    show (if c = '<' ∧ d = '/' then '<' :: '\\' :: '/' :: escape_lt_slash_list rest
      else c :: escape_lt_slash_list (d :: rest)).head? = (c :: d :: rest).head?
    split_ifs with h
    · simp [h.1]
    · rfl

/-- After the rewrite, no `</` remains anywhere in the string. -/
lemma has_lt_slash_escape : ∀ l : List Char,
    has_lt_slash (escape_lt_slash_list l) = false
  | [] => rfl
  | [_] => rfl
  | c :: d :: rest => by
    show has_lt_slash (if c = '<' ∧ d = '/' then '<' :: '\\' :: '/' :: escape_lt_slash_list rest
      else c :: escape_lt_slash_list (d :: rest)) = false
    split_ifs with h
    · -- result: `<`, `\`, `/`, then the escaped tail
      show has_lt_slash ('/' :: escape_lt_slash_list rest) = false
      cases hrec : escape_lt_slash_list rest with
      | nil => rfl
      | cons e t =>
        show has_lt_slash (e :: t) = false
        rw [← hrec]
        exact has_lt_slash_escape rest
    · -- result: `c`, then the escaped tail starting with `d`
      cases hrec : escape_lt_slash_list (d :: rest) with
      | nil => rfl
      | cons e t =>
        have he : e = d := by
          have hh := escape_lt_slash_list_head? (d :: rest)
          rw [hrec] at hh
          simpa using hh
        show (if c = '<' ∧ e = '/' then true else has_lt_slash (e :: t)) = false
        rw [if_neg (fun hc => h ⟨hc.1, he ▸ hc.2⟩)]
        rw [← hrec]
        exact has_lt_slash_escape (d :: rest)

/-- Python `str.strip()` on a column header: drop leading and trailing
whitespace.  (A structural model; `String.trim` itself is defined by
position-indexed recursion that the kernel cannot evaluate.) -/
def py_strip (s : String) : String :=
  String.mk (((s.data.dropWhile Char.isWhitespace).reverse.dropWhile
    Char.isWhitespace).reverse)

/-! ## Data model -/

/-- A parsed CSV file: header names and rows of raw cell strings.
`pd.read_csv` turns an empty cell into `NaN`; we keep cells as strings and
map `""` to missing at coercion time, matching that behaviour. -/
structure Csv where
  headers : List String
  rows : List (List String)
deriving DecidableEq

/-- Abstracted library behaviour: date parsing (`pd.to_datetime`), numeral
parsing (`pd.to_numeric`), `strftime("%Y-%m-%d %H:%M")`, and matplotlib
rendering composed with base64 PNG encoding (the part of `_to_png_b64`
after the `data:` prefix).  No claim depends on their internals.
Timestamps are seconds since the Unix epoch, UTC. -/
structure Env where
  parseDate : String → Option ℤ
  parseNum : String → Option ℚ
  fmtTs : ℤ → String
  renderLine : List (Option ℤ) → List (Option ℚ) → Option (List ℤ × List (Option ℚ)) → String
  renderScatter : List (Option ℚ) → List ℚ → String

/-- Look a cell up by (trimmed) column name. -/
def get_cell (headers row : List String) (name : String) : Option String :=
  (headers.findIdx? (fun h => h == name)).bind fun i => row.get? i

/-- `pd.to_datetime(·, errors="coerce", utc=True)` on one cell: an empty
cell is already `NaN` after `read_csv` and coerces to `NaT`. -/
def to_datetime (env : Env) (s : String) : Option ℤ :=
  if s = "" then none else env.parseDate s

/-- `pd.to_numeric(·, errors="coerce")` on one cell. -/
def to_numeric (env : Env) (s : String) : Option ℚ :=
  if s = "" then none else env.parseNum s

def cell_num (env : Env) (headers row : List String) (name : String) : Option ℚ :=
  (get_cell headers row name).bind (to_numeric env)

/-- One row after loading and coercion (source lines 91-104): a Commit
Record plus the derived quality index. -/
structure Record where
  date : Option ℤ
  survivalRate : ℚ
  immediateReworkRate : Option ℚ
  linesAdded : Option ℚ
  filesTouched : Option ℚ
  aiQualityIndex : ℚ
deriving DecidableEq

/-- Row-wise content of lines 91-104: dates coerced, numeric columns
coerced when present, `SurvivalRate` filled with 0.0,
`ImmediateReworkRate` all-`NaN` when the column is absent, and
`AI_Quality_Index = SurvivalRate * (1 - ImmediateReworkRate.fillna(0))`.
(The source interleaves the row-wise coercions with the sort; they
commute, so the model applies them per row first and sorts after.) -/
def record_of_row (env : Env) (headers row : List String) : Record :=
  let sr := (cell_num env headers row "SurvivalRate").getD 0
  let irr := if "ImmediateReworkRate" ∈ headers then cell_num env headers row "ImmediateReworkRate" else none
  { date := (get_cell headers row "Date").bind (to_datetime env)
    survivalRate := sr
    immediateReworkRate := irr
    linesAdded := if "LinesAdded" ∈ headers then cell_num env headers row "LinesAdded" else none
    filesTouched := if "FilesTouched" ∈ headers then cell_num env headers row "FilesTouched" else none
    aiQualityIndex := sr * (1 - irr.getD 0) }

/-- The comparison `sort_values("Date")` uses on non-null timestamps. -/
def date_rle (a b : Record) : Prop :=
  a.date.getD 0 ≤ b.date.getD 0

instance : DecidableRel date_rle :=
  fun a b => inferInstanceAs (Decidable (a.date.getD 0 ≤ b.date.getD 0))

instance : IsTotal Record date_rle :=
  ⟨fun a b => le_total (a.date.getD 0) (b.date.getD 0)⟩

instance : IsTrans Record date_rle :=
  ⟨fun _ _ _ hab hbc => le_trans hab hbc⟩

/-- `df.sort_values("Date")` (line 92): non-null timestamps ascending
(pandas' tie order among equal timestamps is the unstable quicksort's; the
model fixes one ascending order), null timestamps appended afterwards in
their original relative order (`na_position="last"`, and pandas keeps the
NaT rows' input order). -/
def sort_records (l : List Record) : List Record :=
  List.insertionSort date_rle (l.filter (fun r => r.date.isSome)) ++
    l.filter (fun r => !r.date.isSome)

/-- Ordering on possibly-null timestamps with nulls last, used to state the
sortedness of the loaded records. -/
def date_le : Option ℤ → Option ℤ → Prop
  | some x, some y => x ≤ y
  | _, none => True
  | none, some _ => False

instance (a b : Option ℤ) : Decidable (date_le a b) :=
  match a, b with
  | some x, some y => inferInstanceAs (Decidable (x ≤ y))
  | some _, none => .isTrue trivial
  | none, none => .isTrue trivial
  | none, some _ => .isFalse (fun h => h)

/-! ## Rolling series (source lines 106-115) -/

/-- The UTC calendar day of a timestamp, as used by `resample("1D")`. -/
def day_of (t : ℤ) : ℤ := Int.fdiv t 86400

/-- Records carrying a non-null timestamp, paired with their day;
`resample` drops `NaT` index entries. -/
def dated_pairs (records : List Record) : List (ℤ × Record) :=
  records.filterMap (fun r => r.date.map (fun t => (day_of t, r)))

def list_min (x : ℤ) (l : List ℤ) : ℤ := l.foldl min x

def list_max (x : ℤ) (l : List ℤ) : ℤ := l.foldl max x

/-- The continuous day index `resample("1D")` produces: every calendar day
from the first to the last, bins with no records included. -/
def day_range (lo hi : ℤ) : List ℤ :=
  (List.range (hi - lo + 1).toNat).map (fun i : ℕ => lo + (i : ℤ))

/-- Mean of a list of defined values; `NaN` (`none`) when empty, as for a
pandas mean over an empty or all-`NaN` window. -/
def mean_opt (l : List ℚ) : Option ℚ :=
  if l = [] then none else some (l.sum / l.length)

/-- The defined values of column `f` among the records of day `d`. -/
def daily_vals (pairs : List (ℤ × Record)) (f : Record → Option ℚ) (d : ℤ) : List ℚ :=
  (pairs.filter (fun p => p.1 == d)).filterMap (fun p => f p.2)

/-- `rolling(7, min_periods=1).mean()`: at position `i` the mean of the
defined values among the up-to-7 trailing entries. -/
def roll_mean (xs : List (Option ℚ)) : List (Option ℚ) :=
  (List.range xs.length).map (fun i => mean_opt (((xs.take (i + 1)).drop (i + 1 - 7)).filterMap id))

structure Rolling where
  days : List ℤ
  daily_sr : List (Option ℚ)
  daily_ir : List (Option ℚ)
  daily_qi : List (Option ℚ)
  roll_sr : List (Option ℚ)
  roll_ir : List (Option ℚ)
  roll_qi : List (Option ℚ)
deriving DecidableEq

/-- Lines 106-115: the rolling overlay data, computed only when some
timestamp is non-null. -/
def rolling_of (records : List Record) : Option Rolling :=
  match dated_pairs records with
  | [] => none
  | p :: ps =>
    let pairs := p :: ps
    let lo := list_min p.1 (ps.map Prod.fst)
    let hi := list_max p.1 (ps.map Prod.fst)
    let days := day_range lo hi
    let dsr := days.map (fun d => mean_opt (daily_vals pairs (fun r => some r.survivalRate) d))
    let dir := days.map (fun d => mean_opt (daily_vals pairs (fun r => r.immediateReworkRate) d))
    let dqi := days.map (fun d => mean_opt (daily_vals pairs (fun r => some r.aiQualityIndex) d))
    some { days := days, daily_sr := dsr, daily_ir := dir, daily_qi := dqi,
           roll_sr := roll_mean dsr, roll_ir := roll_mean dir, roll_qi := roll_mean dqi }

/-! ## Charts, KPIs and table rows (source lines 117-199) -/

/-- `_to_png_b64` (lines 28-33): the encoded figure, as an inline data URI. -/
def to_png_b64 (body : String) : String :=
  "data:image/png;base64," ++ body

structure Charts where
  survival : String
  immediate : String
  scatter : String
  qi : String
deriving DecidableEq

structure Kpi where
  commits : String
  lines : String
  survival : String
  immediate : String
deriving DecidableEq

structure Payload where
  label : String
  source : String
  charts : Charts
  kpi : Kpi
  tableRows : String
  id : String
deriving DecidableEq

/-- Python `int()`: truncation toward zero. -/
def trunc_q (q : ℚ) : ℤ :=
  if 0 ≤ q then ⌊q⌋ else ⌈q⌉

/-- The four charts (lines 117-158).  The scatter chart is only rendered
when the `LinesAdded` column exists; otherwise the empty sentinel. -/
def charts_of (env : Env) (records : List Record) (rolling : Option Rolling)
    (has_lines : Bool) : Charts :=
  { survival := to_png_b64 (env.renderLine (records.map Record.date)
      (records.map (fun r => some r.survivalRate))
      (rolling.map (fun ro => (ro.days, ro.roll_sr))))
    immediate := to_png_b64 (env.renderLine (records.map Record.date)
      (records.map Record.immediateReworkRate)
      (rolling.map (fun ro => (ro.days, ro.roll_ir))))
    scatter := if has_lines then
        to_png_b64 (env.renderScatter (records.map Record.linesAdded)
          (records.map Record.survivalRate))
      else ""
    qi := to_png_b64 (env.renderLine (records.map Record.date)
      (records.map (fun r => some r.aiQualityIndex))
      (rolling.map (fun ro => (ro.days, ro.roll_qi)))) }

/-- Lines 160-166 and 192-197.  For zero records the survival mean is
replaced by `0.0` (the `if len(df) else 0.0` guard); the rework mean is the
column mean ignoring `NaN`s, `NaN` (so `""`) when no value is defined.
(The `ImmediateReworkRate` column always exists at this point — line 102
creates it — so the `float("nan")` branch at line 166 is dead code with the
same rendering `""`.) -/
def kpi_of (records : List Record) (has_lines : Bool) : Kpi :=
  { commits := nat_to_str records.length
    lines := int_to_str (if has_lines then trunc_q ((records.map (fun r => r.linesAdded.getD 0)).sum) else 0)
    survival := format_float (some (if records.length = 0 then 0
      else (records.map Record.survivalRate).sum / (records.length : ℚ)))
    immediate := format_float (mean_opt (records.filterMap Record.immediateReworkRate)) }

/-- One `<tr>` of the raw-data table (lines 168-186): every displayed cell
value is HTML-escaped. -/
def render_row (env : Env) (r : Record) : String :=
  let date_str := match r.date with | some t => env.fmtTs t | none => ""
  let files : ℤ := match r.filesTouched with | some q => trunc_q q | none => 0
  let lines : ℤ := match r.linesAdded with | some q => trunc_q q | none => 0
  "<tr>" ++
    "<td>" ++ html_escape date_str ++ "</td>" ++
    "<td>" ++ html_escape (int_to_str files) ++ "</td>" ++
    "<td>" ++ html_escape (int_to_str lines) ++ "</td>" ++
    "<td>" ++ html_escape (format_float (some r.survivalRate)) ++ "</td>" ++
    "<td>" ++ html_escape (format_float r.immediateReworkRate) ++ "</td>" ++
    "<td>" ++ html_escape (format_float (some r.aiQualityIndex)) ++ "</td>" ++
    "</tr>"

/-- `os.path.basename` for POSIX-style paths. -/
def basename (path : String) : String :=
  (path.splitOn "/").getLastD path

/-! ## `_prepare_dataset` (source lines 82-199) -/

inductive PrepError where
  /-- `FileNotFoundError(f"CSV not found: {csv_path}")`, line 84. -/
  | notFound (path : String)
  /-- `ValueError("CSV must contain a 'Date' column.")`, line 89. -/
  | schemaError
  /-- pandas `KeyError` on a missing column, raised by line 98 when
  `SurvivalRate` is absent. -/
  | keyError (col : String)
deriving DecidableEq

/-- The result of `_prepare_dataset`: the returned payload dict plus the
function's intermediate values the claims talk about. -/
structure Prepared where
  headers : List String
  records : List Record
  rolling : Option Rolling
  rows_html : List String
  payload : Payload
deriving DecidableEq

/-- The successful branch of `_prepare_dataset` (lines 91-199). -/
def mk_prepared (env : Env) (label path : String) (csv : Csv) : Prepared :=
  let headers := csv.headers.map py_strip
  let records := sort_records (csv.rows.map (record_of_row env headers))
  let rolling := rolling_of records
  let has_lines := headers.contains "LinesAdded"
  let rows_html := records.map (render_row env)
  { headers := headers
    records := records
    rolling := rolling
    rows_html := rows_html
    payload := { label := label
                 source := basename path
                 charts := charts_of env records rolling has_lines
                 kpi := kpi_of records has_lines
                 tableRows := String.intercalate "\n        " rows_html
                 id := "" } }

/-- `_prepare_dataset(label, csv_path)`; `fs` models the file system read
through `os.path.exists` / `pd.read_csv`. -/
def prepare_dataset (env : Env) (fs : String → Option Csv) (label path : String) :
    Except PrepError Prepared :=
  match fs path with
  | none => .error (.notFound path)
  | some csv =>
    let headers := csv.headers.map py_strip
    if "Date" ∉ headers then .error .schemaError
    else if "SurvivalRate" ∉ headers then .error (.keyError "SurvivalRate")
    else .ok (mk_prepared env label path csv)

/-! ## `build_dashboard` (source lines 202-452) -/

inductive BuildError where
  /-- Driver-level `ValueError`s. -/
  | validation (msg : String)
  /-- A dataset failed to load; the exception propagates and aborts the
  run. -/
  | prep (e : PrepError)
deriving DecidableEq

/-- One `<option>` tag (line 220): value is the slug, label is escaped,
the initially-displayed dataset carries ` selected`. -/
def option_tag (rid default_id label : String) : String :=
  "<option value=\"" ++ rid ++ "\"" ++ (if rid = default_id then " selected" else "") ++
    ">" ++ html_escape label ++ "</option>"

/-- `json.dumps` of the kpi sub-dict, insertion order `commits, lines,
survival, immediate` with default separators. -/
def json_kpi (k : Kpi) : String :=
  "\x7b" ++ json_str "commits" ++ ": " ++ json_str k.commits ++ ", " ++
    json_str "lines" ++ ": " ++ json_str k.lines ++ ", " ++
    json_str "survival" ++ ": " ++ json_str k.survival ++ ", " ++
    json_str "immediate" ++ ": " ++ json_str k.immediate ++ "\x7d"

/-- `json.dumps` of the charts sub-dict, insertion order `survival,
immediate, scatter, qi`. -/
def json_charts (c : Charts) : String :=
  "\x7b" ++ json_str "survival" ++ ": " ++ json_str c.survival ++ ", " ++
    json_str "immediate" ++ ": " ++ json_str c.immediate ++ ", " ++
    json_str "scatter" ++ ": " ++ json_str c.scatter ++ ", " ++
    json_str "qi" ++ ": " ++ json_str c.qi ++ "\x7d"

/-- `json.dumps` of one payload dict; `id` was inserted last (line 215). -/
def json_payload (p : Payload) : String :=
  "\x7b" ++ json_str "label" ++ ": " ++ json_str p.label ++ ", " ++
    json_str "source" ++ ": " ++ json_str p.source ++ ", " ++
    json_str "charts" ++ ": " ++ json_charts p.charts ++ ", " ++
    json_str "kpi" ++ ": " ++ json_kpi p.kpi ++ ", " ++
    json_str "tableRows" ++ ": " ++ json_str p.tableRows ++ ", " ++
    json_str "id" ++ ": " ++ json_str p.id ++ "\x7d"

/-- `json.dumps(repo_payloads)`: Python dicts serialise in insertion
order. -/
def json_dumps (payloads : List (String × Payload)) : String :=
  "\x7b" ++ String.intercalate ", "
    (payloads.map (fun kp => json_str kp.1 ++ ": " ++ json_payload kp.2)) ++ "\x7d"

/-- The assembled report: the fields of the HTML template that the claims
inspect (lines 207-232 and 431-448); the fixed template text around them
carries no input data. -/
structure Document where
  payloads : List (String × Payload)
  default_repo_id : String
  option_tags : List String
  repo_data_json : String
  initial_repo_label : String
  initial_repo_source : String
  initial_kpi : Kpi
  initial_table_rows : String
  scatter_src : String
  scatter_img_extra_class : String
  scatter_empty_class_attr : String
deriving DecidableEq

/-- The `for idx, (label, path) in enumerate(dataset_specs, start=1)` loop
(lines 212-220): prepare each dataset, assign its unique slug, accumulate
the keyed payloads.  Any exception aborts the loop. -/
def build_loop (env : Env) (fs : String → Option Csv) :
    List (String × String) → Nat → Finset String →
      Except BuildError (List (String × Payload))
  | [], _, _ => .ok []
  | (label, path) :: rest, idx, used =>
    match prepare_dataset env fs label path with
    | .error e => .error (.prep e)
    | .ok pr =>
      let iu := unique_id (slugify label) used idx
      match build_loop env fs rest (idx + 1) iu.2 with
      | .error e => .error e
      | .ok tail => .ok ((iu.1, { pr.payload with id := iu.1 }) :: tail)

/-- Document assembly from the accumulated payload map (lines 222-232 and
431-448); `rid0`/`p0` are `default_repo_id` / `initial_payload`. -/
def mk_document (rid0 : String) (p0 : Payload)
    (payloads : List (String × Payload)) : Document :=
  { payloads := payloads
    default_repo_id := rid0
    option_tags := payloads.map (fun kp => option_tag kp.1 rid0 kp.2.label)
    repo_data_json := escape_lt_slash (json_dumps payloads)
    initial_repo_label := html_escape p0.label
    initial_repo_source := html_escape p0.source
    initial_kpi := p0.kpi
    initial_table_rows := p0.tableRows
    scatter_src := p0.charts.scatter
    scatter_img_extra_class := if p0.charts.scatter = "" then " hidden" else ""
    scatter_empty_class_attr := if p0.charts.scatter = "" then "" else " class=\"hidden\"" }

/-- `build_dashboard(...)` minus the driver-level spec normalisation: the
loop over the dataset specifications followed by document assembly. -/
def build_dashboard (env : Env) (fs : String → Option Csv)
    (specs : List (String × String)) : Except BuildError Document :=
  match specs with
  | [] => .error (.validation "At least one dataset must be provided.")
  | _ :: _ =>
    match build_loop env fs specs 1 ∅ with
    | .error e => .error e
    | .ok payloads =>
      match payloads with
      | [] => .error (.validation "At least one dataset must be provided.")
      | (rid0, p0) :: tail => .ok (mk_document rid0 p0 ((rid0, p0) :: tail))

/-- Lines 450-452: the output file is written only after the whole document
was assembled; an exception anywhere above leaves no file behind. -/
def written_files (res : Except BuildError Document) (html_out : String) : List String :=
  match res with
  | .ok _ => [html_out]
  | .error _ => []

/-! ## General lemmas about the pipeline -/

lemma sort_records_perm (l : List Record) : List.Perm (sort_records l) l := by
  unfold sort_records
  exact ((List.perm_insertionSort date_rle _).append_right _).trans
    (List.filter_append_perm _ l)

lemma mem_sort_records {r : Record} {l : List Record} :
    r ∈ sort_records l ↔ r ∈ l :=
  (sort_records_perm l).mem_iff

lemma length_sort_records (l : List Record) : (sort_records l).length = l.length :=
  (sort_records_perm l).length_eq

/-- Success characterisation of `_prepare_dataset`. -/
lemma prepare_ok_iff {env : Env} {fs : String → Option Csv} {label path : String}
    {pr : Prepared} :
    prepare_dataset env fs label path = .ok pr ↔
      ∃ csv, fs path = some csv ∧
        "Date" ∈ csv.headers.map py_strip ∧
        "SurvivalRate" ∈ csv.headers.map py_strip ∧
        pr = mk_prepared env label path csv := by
  cases hfs : fs path with
  | none => simp [prepare_dataset, hfs]
  | some csv =>
    simp only [prepare_dataset, hfs]
    by_cases hd : "Date" ∉ csv.headers.map py_strip
    · rw [if_pos hd]
      simp only [reduceCtorEq, false_iff]
      rintro ⟨csv', hcsv, hdate, _, _⟩
      cases hcsv
      exact hd hdate
    · rw [if_neg hd]
      rw [not_not] at hd
      by_cases hs : "SurvivalRate" ∉ csv.headers.map py_strip
      · rw [if_pos hs]
        simp only [reduceCtorEq, false_iff]
        rintro ⟨csv', hcsv, _, hsr, _⟩
        cases hcsv
        exact hs hsr
      · rw [if_neg hs]
        rw [not_not] at hs
        constructor
        · intro h
          exact ⟨csv, rfl, hd, hs, (Except.ok.injEq _ _ ▸ h).symm⟩
        · rintro ⟨csv', hcsv, _, _, hpr⟩
          cases hcsv
          rw [hpr]

/-- Every loaded record is the row-wise image of an input row. -/
lemma mem_prepared_records {env : Env} {fs : String → Option Csv}
    {label path : String} {pr : Prepared}
    (h : prepare_dataset env fs label path = .ok pr) :
    ∀ r ∈ pr.records, ∃ csv row, fs path = some csv ∧ row ∈ csv.rows ∧
      r = record_of_row env (csv.headers.map py_strip) row := by
  intro r hr
  obtain ⟨csv, hcsv, _, _, hpr⟩ := prepare_ok_iff.mp h
  subst hpr
  have hr2 : r ∈ sort_records (csv.rows.map (record_of_row env (csv.headers.map py_strip))) := hr
  have hr3 := mem_sort_records.mp hr2
  obtain ⟨row, hrow, hre⟩ := List.mem_map.mp hr3
  exact ⟨csv, row, hcsv, hrow, hre.symm⟩

/-! ## Test fixtures used by witnesses and counterexamples -/

/-- Concrete parsers and renderers for witness evaluation: `D0`/`D1`/`D2`
parse to midnight UTC of consecutive epoch days, a few numerals parse to
the matching rationals, everything else is unparseable. -/
def test_env : Env :=
  { parseDate := fun s =>
      if s = "D0" then some 0
      else if s = "D1" then some 86400
      else if s = "D2" then some 172800
      else none
    parseNum := fun s =>
      if s = "0.5" then some (mkRat 1 2)
      else if s = "0.7" then some (mkRat 7 10)
      else if s = "1" then some 1
      else none
    fmtTs := fun t => "ts" ++ int_to_str t
    renderLine := fun _ _ _ => "LINE"
    renderScatter := fun _ _ => "SCAT" }

def csv_a : Csv := ⟨["Date", "SurvivalRate"], [["D0", "0.5"], ["D2", "0.7"]]⟩

def csv_nosr : Csv := ⟨["Date"], [["D0"]]⟩

def csv_empty : Csv :=
  ⟨["Date", "SurvivalRate", "ImmediateReworkRate", "LinesAdded", "FilesTouched"], []⟩

def csv_lines : Csv := ⟨["Date", "SurvivalRate", "LinesAdded"], [["D0", "0.5", "1"]]⟩

def csv_irr : Csv :=
  ⟨["Date", "SurvivalRate", "ImmediateReworkRate"], [["D0", "0.5", ""], ["D1", "0.7", "0.5"]]⟩

def csv_nodate : Csv := ⟨["X"], []⟩

def test_fs : String → Option Csv := fun p =>
  if p = "a.csv" then some csv_a
  else if p = "nosr.csv" then some csv_nosr
  else if p = "empty.csv" then some csv_empty
  else if p = "lines.csv" then some csv_lines
  else if p = "irr.csv" then some csv_irr
  else if p = "nodate.csv" then some csv_nodate
  else none

/-- Fallback record for total head extraction in witnesses. -/
def record0 : Record := ⟨none, 0, none, none, none, 0⟩

/-! # Claims -/

/-- **C1.** For every loaded row, `AI_Quality_Index = survivalRate * (1 -
immediateReworkRate)` with a null rework rate treated as 0 for this formula
only; a row whose `ImmediateReworkRate` cell is empty gets a null rework
rate, hence a quality index equal to its survival rate; and whenever the
survival rate and (defined) rework rate both lie in `[0,1]`, the quality
index lies in `[0,1]`. -/
theorem C1_quality_index (env : Env) (fs : String → Option Csv) (label path : String)
    (pr : Prepared) (h : prepare_dataset env fs label path = .ok pr) :
    (∀ r ∈ pr.records,
      r.aiQualityIndex = r.survivalRate * (1 - r.immediateReworkRate.getD 0) ∧
      (r.immediateReworkRate = none → r.aiQualityIndex = r.survivalRate) ∧
      (0 ≤ r.survivalRate → r.survivalRate ≤ 1 →
        (∀ x, r.immediateReworkRate = some x → 0 ≤ x ∧ x ≤ 1) →
        0 ≤ r.aiQualityIndex ∧ r.aiQualityIndex ≤ 1)) ∧
    (∀ headers row, get_cell headers row "ImmediateReworkRate" = some "" →
      (record_of_row env headers row).immediateReworkRate = none) := by
  constructor
  · intro r hr
    obtain ⟨csv, row, hcsv, hrow, hre⟩ := mem_prepared_records h r hr
    have qi_eq : r.aiQualityIndex = r.survivalRate * (1 - r.immediateReworkRate.getD 0) := by
      subst hre
      rfl
    refine ⟨qi_eq, ?_, ?_⟩
    · intro hn
      rw [qi_eq, hn]
      simp
    · intro h0 h1 hx
      rw [qi_eq]
      rcases hirr : r.immediateReworkRate with _ | x
      · simp only [hirr, Option.getD_none, sub_zero, mul_one]
        exact ⟨h0, h1⟩
      · obtain ⟨hx0, hx1⟩ := hx x hirr
        simp only [hirr, Option.getD_some]
        constructor
        · exact mul_nonneg h0 (by linarith)
        · exact mul_le_one₀ h1 (by linarith) (by linarith)
  · intro headers row hcell
    show (if "ImmediateReworkRate" ∈ headers
      then cell_num env headers row "ImmediateReworkRate" else none) = none
    split_ifs with hmem
    · unfold cell_num
      rw [hcell]
      rfl
    · rfl

/-- The first loaded row of `csv_irr`: day-0 timestamp, survival 0.5,
empty rework cell. -/
def rec_irr0 : Record := ⟨some 0, 1/2, none, none, none, 1/2⟩

lemma prepare_irr_eval :
    prepare_dataset test_env test_fs "Repo" "irr.csv" =
      .ok (mk_prepared test_env "Repo" "irr.csv" csv_irr) :=
  prepare_ok_iff.mpr ⟨csv_irr, by decide, by decide, by decide, rfl⟩

lemma records_irr_eval :
    (mk_prepared test_env "Repo" "irr.csv" csv_irr).records =
      [rec_irr0, ⟨some 86400, 7/10, some (1/2), none, none, 7/20⟩] := by
  simp [mk_prepared, sort_records, record_of_row, cell_num, get_cell, to_numeric,
    to_datetime, test_env, csv_irr, py_strip, date_rle, rec_irr0,
    Rat.mkRat_eq_divInt, Rat.divInt_eq_div]
  norm_num

/-- Witness for C1 at the first loaded row of `csv_irr` (rework cell
empty): its quality index equals its survival rate and lies in `[0,1]`. -/
theorem C1_quality_index_witness :
    rec_irr0.aiQualityIndex = rec_irr0.survivalRate ∧
    0 ≤ rec_irr0.aiQualityIndex ∧ rec_irr0.aiQualityIndex ≤ 1 := by
  have hmem : rec_irr0 ∈ (mk_prepared test_env "Repo" "irr.csv" csv_irr).records := by
    rw [records_irr_eval]
    exact List.mem_cons_self _ _
  obtain ⟨qi_eq, hnone_imp, hbounds⟩ :=
    (C1_quality_index test_env test_fs "Repo" "irr.csv"
      (mk_prepared test_env "Repo" "irr.csv" csv_irr) prepare_irr_eval).1 rec_irr0 hmem
  refine ⟨hnone_imp rfl, ?_⟩
  exact hbounds (by norm_num [rec_irr0]) (by norm_num [rec_irr0])
    (fun x hx => by simp [rec_irr0] at hx)

/-- **C2, counterexample.**  `csv_nosr` has a `Date` column and no
`SurvivalRate` column, yet `_prepare_dataset` raises (the unguarded
`df["SurvivalRate"].fillna(0.0)` at line 98), refuting "dataset
preparation still succeeds". -/
theorem C2_counterexample :
    test_fs "nosr.csv" = some csv_nosr ∧
    "Date" ∈ csv_nosr.headers.map py_strip ∧
    "SurvivalRate" ∉ csv_nosr.headers.map py_strip ∧
    prepare_dataset test_env test_fs "Repo" "nosr.csv" =
      .error (.keyError "SurvivalRate") := by
  refine ⟨by decide, by decide, by decide, ?_⟩
  have h : test_fs "nosr.csv" = some csv_nosr := by decide
  simp only [prepare_dataset, h]
  rw [if_neg (not_not_intro (by decide)), if_pos (by decide)]

/-- **C2, amended.**  A CSV with a `Date` column but no `SurvivalRate`
column makes `_prepare_dataset` raise a `KeyError` (line 98 accesses the
missing column); per-row missing, empty or unparseable `SurvivalRate`
values in a present column default to 0.0. -/
theorem C2_missing_survival_column (env : Env) (fs : String → Option Csv)
    (label path : String) (csv : Csv)
    (hfs : fs path = some csv)
    (hdate : "Date" ∈ csv.headers.map py_strip)
    (hsr : "SurvivalRate" ∉ csv.headers.map py_strip) :
    prepare_dataset env fs label path = .error (.keyError "SurvivalRate") ∧
    (∀ headers row, get_cell headers row "SurvivalRate" = some "" →
      (record_of_row env headers row).survivalRate = 0) ∧
    (∀ headers row, get_cell headers row "SurvivalRate" = none →
      (record_of_row env headers row).survivalRate = 0) := by
  refine ⟨?_, ?_, ?_⟩
  · simp only [prepare_dataset, hfs]
    rw [if_neg (not_not_intro hdate), if_pos hsr]
  · intro headers row hcell
    show (cell_num env headers row "SurvivalRate").getD 0 = 0
    simp [cell_num, hcell, to_numeric]
  · intro headers row hcell
    show (cell_num env headers row "SurvivalRate").getD 0 = 0
    simp [cell_num, hcell]

/-- Witness for the amended C2 at `csv_nosr`, plus the 0.0 default at an
empty `SurvivalRate` cell. -/
theorem C2_missing_survival_column_witness :
    prepare_dataset test_env test_fs "Repo" "nosr.csv" =
      .error (.keyError "SurvivalRate") ∧
    (record_of_row test_env ["Date", "SurvivalRate"] ["D0", ""]).survivalRate = 0 := by
  have happ := C2_missing_survival_column test_env test_fs "Repo" "nosr.csv" csv_nosr
    (by decide) (by decide) (by decide)
  exact ⟨happ.1, happ.2.1 ["Date", "SurvivalRate"] ["D0", ""] (by decide)⟩

/-- The KPI dict computed for zero records: count and lines `"0"`, mean
survival `"0.000"` (line 162 substitutes `0.0` when `len(df)` is zero),
mean rework `""` (`NaN`). -/
lemma kpi_of_nil (b : Bool) : kpi_of [] b = ⟨"0", "0", "0.000", ""⟩ := by
  cases b <;>
    · simp [kpi_of, mean_opt, format_float, format_q3, trunc_q, int_to_str,
        nat_to_str, pad3]
      decide

/-- **C3, counterexample.**  On a zero-row CSV with all five headers the
mean-survival KPI renders as `"0.000"`, not as the empty string the claim
asserts. -/
theorem C3_counterexample :
    csv_empty.rows = [] ∧
    prepare_dataset test_env test_fs "Repo" "empty.csv" =
      .ok (mk_prepared test_env "Repo" "empty.csv" csv_empty) ∧
    (mk_prepared test_env "Repo" "empty.csv" csv_empty).payload.kpi.survival = "0.000" ∧
    (mk_prepared test_env "Repo" "empty.csv" csv_empty).payload.kpi.survival ≠ "" := by
  have hkpi : (mk_prepared test_env "Repo" "empty.csv" csv_empty).payload.kpi =
      kpi_of [] ((csv_empty.headers.map py_strip).contains "LinesAdded") := by
    simp [mk_prepared, csv_empty, sort_records]
  refine ⟨rfl, prepare_ok_iff.mpr ⟨csv_empty, by decide, by decide, by decide, rfl⟩, ?_, ?_⟩
  · rw [hkpi, kpi_of_nil]
  · rw [hkpi, kpi_of_nil]
    decide

/-- **C3, amended.**  For a zero-row CSV with valid headers (a `Date`
column, and a `SurvivalRate` column so that line 98 does not raise),
preparation succeeds and the KPIs are: commits `"0"`, lines `"0"`, mean
rework the empty string — but mean survival renders `"0.000"`, because
line 162 substitutes `0.0` (not `NaN`) when there are zero rows. -/
theorem C3_empty_dataset (env : Env) (fs : String → Option Csv)
    (label path : String) (csv : Csv)
    (hfs : fs path = some csv) (hrows : csv.rows = [])
    (hdate : "Date" ∈ csv.headers.map py_strip)
    (hsr : "SurvivalRate" ∈ csv.headers.map py_strip) :
    prepare_dataset env fs label path = .ok (mk_prepared env label path csv) ∧
    (mk_prepared env label path csv).payload.kpi = ⟨"0", "0", "0.000", ""⟩ := by
  have hkpi : (mk_prepared env label path csv).payload.kpi =
      kpi_of [] ((csv.headers.map py_strip).contains "LinesAdded") := by
    simp [mk_prepared, hrows, sort_records]
  exact ⟨prepare_ok_iff.mpr ⟨csv, hfs, hdate, hsr, rfl⟩, by rw [hkpi, kpi_of_nil]⟩

/-- Witness for the amended C3 at the concrete zero-row `csv_empty`. -/
theorem C3_empty_dataset_witness :
    prepare_dataset test_env test_fs "Label" "empty.csv" =
      .ok (mk_prepared test_env "Label" "empty.csv" csv_empty) ∧
    (mk_prepared test_env "Label" "empty.csv" csv_empty).payload.kpi =
      ⟨"0", "0", "0.000", ""⟩ :=
  C3_empty_dataset test_env test_fs "Label" "empty.csv" csv_empty
    (by decide) rfl (by decide) (by decide)

/-- A failing dataset anywhere in the list makes the whole loop fail. -/
lemma build_loop_error (env : Env) (fs : String → Option Csv) :
    ∀ (l : List (String × String)) (idx : Nat) (used : Finset String),
      (∃ s ∈ l, ∃ e, prepare_dataset env fs s.1 s.2 = .error e) →
      ∃ e', build_loop env fs l idx used = .error (.prep e') := by
  intro l
  induction l with
  | nil =>
    rintro _ _ ⟨s, hs, _⟩
    exact absurd hs (by simp)
  | cons hd rest ih =>
    rintro idx used ⟨s, hs, e, he⟩
    obtain ⟨label, path⟩ := hd
    rcases List.mem_cons.mp hs with rfl | hs'
    · refine ⟨e, ?_⟩
      simp only [build_loop, he]
    · cases hp : prepare_dataset env fs label path with
      | error e0 =>
        refine ⟨e0, ?_⟩
        simp only [build_loop, hp]
      | ok pr =>
        obtain ⟨e', he'⟩ := ih (idx + 1)
          (unique_id (slugify label) used idx).2 ⟨s, hs', e, he⟩
        refine ⟨e', ?_⟩
        simp only [build_loop, hp, he']

/-- **C4.**  Loading raises the not-found error exactly when the path does
not exist; it raises the schema error exactly when the path exists but the
whitespace-trimmed headers contain no `Date` column; and a fatal error in
any dataset of a run aborts the whole run with no output file written. -/
theorem C4_fatal_errors (env : Env) (fs : String → Option Csv) (label path : String)
    (specs : List (String × String)) (out : String) :
    (prepare_dataset env fs label path = .error (.notFound path) ↔ fs path = none) ∧
    (prepare_dataset env fs label path = .error .schemaError ↔
      ∃ csv, fs path = some csv ∧ "Date" ∉ csv.headers.map py_strip) ∧
    ((∃ s ∈ specs, ∃ e, prepare_dataset env fs s.1 s.2 = .error e) →
      ∃ e', build_dashboard env fs specs = .error e' ∧
        written_files (build_dashboard env fs specs) out = []) := by
  refine ⟨?_, ?_, ?_⟩
  · cases hfs : fs path with
    | none => simp [prepare_dataset, hfs]
    | some csv =>
      simp only [prepare_dataset, hfs]
      split_ifs with h1 h2 <;> simp
  · cases hfs : fs path with
    | none => simp [prepare_dataset, hfs]
    | some csv =>
      simp only [prepare_dataset, hfs]
      split_ifs with h1 h2 <;> simp_all
  · intro hex
    cases specs with
    | nil =>
      obtain ⟨s, hs, _⟩ := hex
      exact absurd hs (by simp)
    | cons hd rest =>
      obtain ⟨e', he'⟩ := build_loop_error env fs (hd :: rest) 1 ∅ hex
      refine ⟨.prep e', ?_, ?_⟩
      · simp only [build_dashboard, he']
      · simp only [written_files, build_dashboard, he']

/-- Witness for C4: a missing file yields the not-found error, a file
without a `Date` column yields the schema error, and a run containing the
missing file aborts with nothing written. -/
theorem C4_fatal_errors_witness :
    prepare_dataset test_env test_fs "R" "missing.csv" =
      .error (.notFound "missing.csv") ∧
    prepare_dataset test_env test_fs "R" "nodate.csv" = .error .schemaError ∧
    ∃ e', build_dashboard test_env test_fs [("A", "a.csv"), ("R", "missing.csv")] =
        .error e' ∧
      written_files
        (build_dashboard test_env test_fs [("A", "a.csv"), ("R", "missing.csv")])
        "out.html" = [] := by
  have h := C4_fatal_errors test_env test_fs "R" "missing.csv"
    [("A", "a.csv"), ("R", "missing.csv")] "out.html"
  refine ⟨h.1.mpr (by decide), ?_, ?_⟩
  · exact (C4_fatal_errors test_env test_fs "R" "nodate.csv" [] "").2.1.mpr
      ⟨csv_nodate, by decide, by decide⟩
  · refine h.2.2 ⟨("R", "missing.csv"), by simp, .notFound "missing.csv", ?_⟩
    exact h.1.mpr (by decide)

/-- The loaded records are in non-decreasing timestamp order with nulls
last. -/
lemma sorted_sort_records (l : List Record) :
    List.Sorted date_le ((sort_records l).map Record.date) := by
  unfold sort_records
  rw [List.map_append]
  show List.Pairwise date_le _
  refine List.pairwise_append.mpr ⟨?_, ?_, ?_⟩
  · rw [List.pairwise_map]
    have hA := List.sorted_insertionSort date_rle (l.filter (fun r => r.date.isSome))
    refine hA.imp_of_mem ?_
    intro a b ha hb hab
    have ha' : a.date.isSome :=
      (List.mem_filter.mp ((List.mem_insertionSort date_rle).mp ha)).2
    have hb' : b.date.isSome :=
      (List.mem_filter.mp ((List.mem_insertionSort date_rle).mp hb)).2
    rcases Option.isSome_iff_exists.mp ha' with ⟨x, hx⟩
    rcases Option.isSome_iff_exists.mp hb' with ⟨y, hy⟩
    have hab' : x ≤ y := by
      have := hab
      unfold date_rle at this
      rw [hx, hy] at this
      simpa using this
    rw [hx, hy]
    exact hab'
  · rw [List.pairwise_map]
    apply List.pairwise_of_forall_mem_list
    intro a _ b hb
    have hb' : b.date.isSome = false := by
      simpa using (List.mem_filter.mp hb).2
    rcases hbn : b.date with _ | y
    · cases a.date <;> trivial
    · rw [hbn] at hb'
      simp at hb'
  · intro x hx y hy
    obtain ⟨b, hb, rfl⟩ := List.mem_map.mp hy
    have hb' : b.date.isSome = false := by
      simpa using (List.mem_filter.mp hb).2
    rcases hbn : b.date with _ | z
    · cases x <;> trivial
    · rw [hbn] at hb'
      simp at hb'

/-- The null-dated records come out of the sort exactly as they went in:
the sort is stable on them and puts them last. -/
lemma filter_sort_records_nones (l : List Record) :
    (sort_records l).filter (fun r => !r.date.isSome) =
      l.filter (fun r => !r.date.isSome) := by
  unfold sort_records
  rw [List.filter_append]
  have h1 : (List.insertionSort date_rle
      (l.filter (fun r => r.date.isSome))).filter (fun r => !r.date.isSome) = [] := by
    have hperm := (List.perm_insertionSort date_rle
      (l.filter (fun r => r.date.isSome))).filter (fun r => !r.date.isSome)
    have h0 : (l.filter (fun r => r.date.isSome)).filter
        (fun r => !r.date.isSome) = [] := by
      rw [List.filter_filter]
      simp
    rw [h0] at hperm
    exact hperm.eq_nil
  have h2 : (l.filter (fun r => !r.date.isSome)).filter (fun r => !r.date.isSome) =
      l.filter (fun r => !r.date.isSome) := by
    rw [List.filter_filter]
    simp
  rw [h1, h2, List.nil_append]

/-- **C5.**  A CSV with `N` rows loads to exactly `N` derived records and
`N` rendered table rows, in non-decreasing timestamp order; null-timestamp
records sit after the dated ones and keep their relative input order. -/
theorem C5_roundtrip (env : Env) (fs : String → Option Csv) (label path : String)
    (csv : Csv) (pr : Prepared)
    (hfs : fs path = some csv)
    (h : prepare_dataset env fs label path = .ok pr) :
    pr.records.length = csv.rows.length ∧
    pr.rows_html.length = csv.rows.length ∧
    List.Sorted date_le (pr.records.map Record.date) ∧
    pr.records.filter (fun r => !r.date.isSome) =
      (csv.rows.map (record_of_row env (csv.headers.map py_strip))).filter
        (fun r => !r.date.isSome) := by
  obtain ⟨csv', hcsv', _, _, hpr⟩ := prepare_ok_iff.mp h
  rw [hfs] at hcsv'
  injection hcsv' with hc
  subst hc
  subst hpr
  have hrec : (mk_prepared env label path csv).records =
      sort_records (csv.rows.map (record_of_row env (csv.headers.map py_strip))) := rfl
  refine ⟨?_, ?_, ?_, ?_⟩
  · rw [hrec, length_sort_records, List.length_map]
  · show ((mk_prepared env label path csv).records.map (render_row env)).length = _
    rw [List.length_map, hrec, length_sort_records, List.length_map]
  · rw [hrec]
    exact sorted_sort_records _
  · rw [hrec]
    exact filter_sort_records_nones _

/-- Witness for C5 at `csv_irr`: two rows load to two records, sorted with
all timestamps present. -/
theorem C5_roundtrip_witness :
    (mk_prepared test_env "Repo" "irr.csv" csv_irr).records.length = csv_irr.rows.length ∧
    List.Sorted date_le
      ((mk_prepared test_env "Repo" "irr.csv" csv_irr).records.map Record.date) := by
  have h := C5_roundtrip test_env test_fs "Repo" "irr.csv" csv_irr
    (mk_prepared test_env "Repo" "irr.csv" csv_irr) (by decide) prepare_irr_eval
  exact ⟨h.1, h.2.2.1⟩

/-- Inversion of one successful loop step. -/
lemma build_loop_cons_ok {env : Env} {fs : String → Option Csv}
    {label path : String} {rest : List (String × String)} {idx : Nat}
    {used : Finset String} {payloads : List (String × Payload)}
    (h : build_loop env fs ((label, path) :: rest) idx used = .ok payloads) :
    ∃ pr tail, prepare_dataset env fs label path = .ok pr ∧
      build_loop env fs rest (idx + 1) (unique_id (slugify label) used idx).2 = .ok tail ∧
      payloads = ((unique_id (slugify label) used idx).1,
        { pr.payload with id := (unique_id (slugify label) used idx).1 }) :: tail := by
  cases hp : prepare_dataset env fs label path with
  | error e =>
    simp [build_loop, hp] at h
  | ok pr =>
    simp only [build_loop, hp] at h
    cases hl : build_loop env fs rest (idx + 1) (unique_id (slugify label) used idx).2 with
    | error e =>
      simp only [hl] at h
      cases h
    | ok tail =>
      simp only [hl] at h
      injection h with h2
      exact ⟨pr, tail, rfl, rfl, h2.symm⟩

/-- Inversion of a successful `build_dashboard` run. -/
lemma build_ok_inv {env : Env} {fs : String → Option Csv}
    {specs : List (String × String)} {doc : Document}
    (h : build_dashboard env fs specs = .ok doc) :
    ∃ rid0 p0 tail, build_loop env fs specs 1 ∅ = .ok ((rid0, p0) :: tail) ∧
      doc = mk_document rid0 p0 ((rid0, p0) :: tail) := by
  cases specs with
  | nil => cases h
  | cons hd rest =>
    rw [build_dashboard] at h
    cases hl : build_loop env fs (hd :: rest) 1 ∅ with
    | error e =>
      rw [hl] at h
      cases h
    | ok payloads =>
      rw [hl] at h
      cases payloads with
      | nil => cases h
      | cons kp tail =>
        obtain ⟨rid0, p0⟩ := kp
        injection h with h2
        exact ⟨rid0, p0, tail, rfl, h2.symm⟩

lemma contains_iff {l : List String} {a : String} : l.contains a = true ↔ a ∈ l :=
  List.elem_iff

lemma to_png_b64_ne_empty (body : String) : to_png_b64 body ≠ "" := by
  intro hcontra
  have hlen := congrArg String.length hcontra
  rw [to_png_b64, String.length_append] at hlen
  have h22 : ("data:image/png;base64," : String).length = 22 := rfl
  rw [h22] at hlen
  have h0 : ("" : String).length = 0 := rfl
  rw [h0] at hlen
  omega

/-- **C7.**  The scatter chart is the empty sentinel exactly when the
`LinesAdded` column is absent; when present it is a non-empty inline data
URI; and the assembled document hides the image element and shows the
fallback message exactly when the sentinel is empty. -/
theorem C7_scatter_sentinel (env : Env) (fs : String → Option Csv)
    (label path : String) (rest : List (String × String)) (csv : Csv)
    (pr : Prepared) (doc : Document)
    (hfs : fs path = some csv)
    (hprep : prepare_dataset env fs label path = .ok pr)
    (hbuild : build_dashboard env fs ((label, path) :: rest) = .ok doc) :
    (pr.payload.charts.scatter = "" ↔ "LinesAdded" ∉ csv.headers.map py_strip) ∧
    ("LinesAdded" ∈ csv.headers.map py_strip →
      ∃ body, pr.payload.charts.scatter = "data:image/png;base64," ++ body) ∧
    doc.scatter_src = pr.payload.charts.scatter ∧
    (doc.scatter_src = "" →
      doc.scatter_img_extra_class = " hidden" ∧ doc.scatter_empty_class_attr = "") ∧
    (doc.scatter_src ≠ "" →
      doc.scatter_img_extra_class = "" ∧
      doc.scatter_empty_class_attr = " class=\"hidden\"") := by
  obtain ⟨csv', hcsv', _, _, hpr⟩ := prepare_ok_iff.mp hprep
  rw [hfs] at hcsv'
  injection hcsv' with hc
  subst hc
  subst hpr
  have hscatter : (mk_prepared env label path csv).payload.charts.scatter =
      (if (csv.headers.map py_strip).contains "LinesAdded" then
        to_png_b64 (env.renderScatter
          ((sort_records (csv.rows.map (record_of_row env (csv.headers.map py_strip)))).map
            Record.linesAdded)
          ((sort_records (csv.rows.map (record_of_row env (csv.headers.map py_strip)))).map
            Record.survivalRate))
      else "") := rfl
  have hiff : (mk_prepared env label path csv).payload.charts.scatter = "" ↔
      "LinesAdded" ∉ csv.headers.map py_strip := by
    rw [hscatter]
    by_cases hc : (csv.headers.map py_strip).contains "LinesAdded" = true
    · rw [if_pos hc]
      simp only [iff_false_intro (to_png_b64_ne_empty _), false_iff]
      rw [not_not]
      exact contains_iff.mp hc
    · rw [if_neg hc]
      simp only [true_iff]
      intro hmem
      exact hc (contains_iff.mpr hmem)
  obtain ⟨rid0, p0, tail, hloop, hdoc⟩ := build_ok_inv hbuild
  obtain ⟨pr', tail', hprep', _, hpay⟩ := build_loop_cons_ok hloop
  have hpr' : pr' = mk_prepared env label path csv := by
    rw [hprep] at hprep'
    injection hprep' with h2
    exact h2.symm
  have hp1 := congrArg List.head? hpay
  simp only [List.head?_cons, Option.some.injEq] at hp1
  have hp0 : p0 = { pr'.payload with id := (unique_id (slugify label) ∅ 1).1 } :=
    congrArg Prod.snd hp1
  have hp0charts : p0.charts = (mk_prepared env label path csv).payload.charts := by
    rw [hp0, hpr']
  subst hdoc
  have hsrc : (mk_document rid0 p0 ((rid0, p0) :: tail)).scatter_src =
      p0.charts.scatter := rfl
  refine ⟨hiff, ?_, ?_, ?_, ?_⟩
  · intro hmem
    rw [hscatter, if_pos (contains_iff.mpr hmem)]
    exact ⟨_, rfl⟩
  · rw [hsrc, hp0charts]
  · intro hempty
    rw [hsrc] at hempty
    constructor
    · show (if p0.charts.scatter = "" then " hidden" else "") = " hidden"
      rw [if_pos hempty]
    · show (if p0.charts.scatter = "" then "" else " class=\"hidden\"") = ""
      rw [if_pos hempty]
  · intro hempty
    rw [hsrc] at hempty
    constructor
    · show (if p0.charts.scatter = "" then " hidden" else "") = ""
      rw [if_neg hempty]
    · show (if p0.charts.scatter = "" then "" else " class=\"hidden\"") = " class=\"hidden\""
      rw [if_neg hempty]

def payload0 : Payload := ⟨"", "", ⟨"", "", "", ""⟩, ⟨"", "", "", ""⟩, "", ""⟩

/-- The document built from the single dataset `lines.csv` (which has a
`LinesAdded` column). -/
def c7_doc : Document :=
  match build_dashboard test_env test_fs [("L", "lines.csv")] with
  | .ok doc => doc
  | .error _ => mk_document "" payload0 []

/-- Witness for C7: with `LinesAdded` present the scatter source is
non-empty, the image is shown and the fallback message is hidden. -/
theorem C7_scatter_sentinel_witness :
    c7_doc.scatter_src ≠ "" ∧
    c7_doc.scatter_img_extra_class = "" ∧
    c7_doc.scatter_empty_class_attr = " class=\"hidden\"" := by
  have hprep : prepare_dataset test_env test_fs "L" "lines.csv" =
      .ok (mk_prepared test_env "L" "lines.csv" csv_lines) :=
    prepare_ok_iff.mpr ⟨csv_lines, by decide, by decide, by decide, rfl⟩
  have hbuild : build_dashboard test_env test_fs [("L", "lines.csv")] = .ok c7_doc := rfl
  obtain ⟨hiff, _, hsrc, _, hneq⟩ := C7_scatter_sentinel test_env test_fs "L" "lines.csv"
    [] csv_lines (mk_prepared test_env "L" "lines.csv" csv_lines) c7_doc
    (by decide) hprep hbuild
  have hne : c7_doc.scatter_src ≠ "" := by
    rw [hsrc]
    intro hcontra
    exact (hiff.mp hcontra) (by decide)
  exact ⟨hne, (hneq hne).1, (hneq hne).2⟩

/-- The document built from two datasets that share the display label
`"Repo"`. -/
def c8_doc : Document :=
  match build_dashboard test_env test_fs [("Repo", "a.csv"), ("Repo", "irr.csv")] with
  | .ok doc => doc
  | .error _ => mk_document "" payload0 []

/-- **C8.**  Slugs lowercase the label, collapse non-alphanumeric runs to
single hyphens and trim boundary hyphens; two datasets labelled `"Repo"`
get the distinct keys `repo` and `repo-2` in the embedded payload map, and
the first one is the initially displayed dataset. -/
theorem C8_duplicate_labels :
    slugify "Repo" = "repo" ∧
    slugify "My  Repo!!" = "my-repo" ∧
    slugify "--A_B--" = "a-b" ∧
    build_dashboard test_env test_fs [("Repo", "a.csv"), ("Repo", "irr.csv")] =
      .ok c8_doc ∧
    c8_doc.payloads.map Prod.fst = ["repo", "repo-2"] ∧
    c8_doc.default_repo_id = "repo" ∧
    ("repo" : String) ≠ "repo-2" := by
  refine ⟨by decide, by decide, by decide, rfl, by decide, by decide, by decide⟩

/-- **C9.**  Display text from input data is inserted in HTML-escaped form
(escaped text can contain no `<`, `>`, `"` or `'`, so it cannot open or
close markup), and the embedded JSON payload string contains no occurrence
of `</` (each is rewritten to `<\/`), so it cannot terminate the embedding
`<script>` context. -/
theorem C9_escaping (env : Env) (fs : String → Option Csv)
    (label path : String) (rest : List (String × String)) (doc : Document)
    (hbuild : build_dashboard env fs ((label, path) :: rest) = .ok doc) :
    (∀ s : String, ∀ d ∈ (html_escape s).data,
      d ≠ '<' ∧ d ≠ '>' ∧ d ≠ '"' ∧ d ≠ '\'') ∧
    has_lt_slash doc.repo_data_json.data = false ∧
    doc.initial_repo_label = html_escape label ∧
    doc.initial_repo_source = html_escape (basename path) ∧
    doc.option_tags = doc.payloads.map
      (fun kp => option_tag kp.1 doc.default_repo_id kp.2.label) ∧
    (∀ r : Record, render_row env r =
      "<tr>" ++
        "<td>" ++ html_escape (match r.date with
          | some t => env.fmtTs t | none => "") ++ "</td>" ++
        "<td>" ++ html_escape (int_to_str (match r.filesTouched with
          | some q => trunc_q q | none => 0)) ++ "</td>" ++
        "<td>" ++ html_escape (int_to_str (match r.linesAdded with
          | some q => trunc_q q | none => 0)) ++ "</td>" ++
        "<td>" ++ html_escape (format_float (some r.survivalRate)) ++ "</td>" ++
        "<td>" ++ html_escape (format_float r.immediateReworkRate) ++ "</td>" ++
        "<td>" ++ html_escape (format_float (some r.aiQualityIndex)) ++ "</td>" ++
        "</tr>") := by
  obtain ⟨rid0, p0, tail, hloop, hdoc⟩ := build_ok_inv hbuild
  obtain ⟨pr', tail', hprep', _, hpay⟩ := build_loop_cons_ok hloop
  obtain ⟨csv, hcsv, _, _, hpr⟩ := prepare_ok_iff.mp hprep'
  have hp1 := congrArg List.head? hpay
  simp only [List.head?_cons, Option.some.injEq] at hp1
  have hp0 : p0 = { pr'.payload with id := (unique_id (slugify label) ∅ 1).1 } :=
    congrArg Prod.snd hp1
  have hlabel : p0.label = label := by
    rw [hp0, hpr]
    rfl
  have hsource : p0.source = basename path := by
    rw [hp0, hpr]
    rfl
  subst hdoc
  refine ⟨html_escape_no_markup, ?_, ?_, ?_, rfl, fun r => rfl⟩
  · show has_lt_slash (escape_lt_slash (json_dumps ((rid0, p0) :: tail))).data = false
    exact has_lt_slash_escape _
  · show html_escape p0.label = html_escape label
    rw [hlabel]
  · show html_escape p0.source = html_escape (basename path)
    rw [hsource]

/-- Witness for C9 on the concrete single-dataset build of `lines.csv`. -/
theorem C9_escaping_witness :
    has_lt_slash c7_doc.repo_data_json.data = false ∧
    c7_doc.initial_repo_label = html_escape "L" ∧
    c7_doc.initial_repo_source = html_escape (basename "lines.csv") := by
  have h := C9_escaping test_env test_fs "L" "lines.csv" [] c7_doc rfl
  exact ⟨h.2.1, h.2.2.1, h.2.2.2.1⟩

lemma nat_to_str_aux_chars : ∀ (fuel n : Nat), ∀ c ∈ nat_to_str_aux fuel n, is_slug_char c := by
  intro fuel
  induction fuel with
  | zero =>
    intro n c hc
    exact absurd hc (by simp [nat_to_str_aux])
  | succ f ih =>
    intro n c hc
    rw [nat_to_str_aux] at hc
    split_ifs at hc with h0
    · exact absurd hc (by simp)
    · rcases List.mem_append.mp hc with h | h
      · exact ih (n / 10) c h
      · rcases List.mem_singleton.mp h with rfl
        have hlt : n % 10 < 10 := Nat.mod_lt n (by norm_num)
        interval_cases hm : (n % 10) <;> decide

lemma nat_to_str_chars (n : Nat) : ∀ c ∈ (nat_to_str n).data, is_slug_char c := by
  intro c hc
  unfold nat_to_str at hc
  split_ifs at hc with h0
  · have : c ∈ ['0'] := hc
    rcases List.mem_singleton.mp this with rfl
    decide
  · exact nat_to_str_aux_chars n n c hc

/-- A non-empty identifier made only of `[a-z0-9-]` characters. -/
def key_safe (s : String) : Prop :=
  s ≠ "" ∧ ∀ c ∈ s.data, is_slug_char c ∨ c = '-'

lemma suffixed_safe {base : String} (hbase : key_safe base) (i : Nat) :
    key_safe (suffixed base i) := by
  constructor
  · intro h
    have hlen := congrArg String.length h
    rw [suffixed, String.length_append, String.length_append] at hlen
    have h1 : ("-" : String).length = 1 := rfl
    have h0 : ("" : String).length = 0 := rfl
    rw [h1, h0] at hlen
    omega
  · intro c hc
    rw [suffixed] at hc
    rw [String.data_append, String.data_append] at hc
    rcases List.mem_append.mp hc with h | h
    · rcases List.mem_append.mp h with h' | h'
      · exact hbase.2 c h'
      · have : c ∈ ['-'] := h'
        rcases List.mem_singleton.mp this with rfl
        exact Or.inr rfl
    · exact Or.inl (nat_to_str_chars i c h)

lemma unique_id_safe {base : String} (used : Finset String) (seed : Nat)
    (hbase : key_safe base) : key_safe (unique_id base used seed).1 := by
  unfold unique_id
  rw [if_neg hbase.1]
  by_cases h : base ∈ used
  · rw [if_pos h]
    exact suffixed_safe hbase _
  · rw [if_neg h]
    exact hbase

lemma good_slug_key_safe {s : String} (h : good_slug s) : key_safe s :=
  ⟨h.1, h.2.1⟩

/-- Invariants of the accumulation loop: one payload per specification,
pairwise-distinct identifier-safe keys, none previously used. -/
lemma build_loop_keys (env : Env) (fs : String → Option Csv) :
    ∀ (l : List (String × String)) (idx : Nat) (used : Finset String)
      (payloads : List (String × Payload)),
      build_loop env fs l idx used = .ok payloads →
      payloads.length = l.length ∧
      (payloads.map Prod.fst).Nodup ∧
      (∀ k ∈ payloads.map Prod.fst, k ∉ used) ∧
      (∀ k ∈ payloads.map Prod.fst, key_safe k) := by
  intro l
  induction l with
  | nil =>
    intro idx used payloads h
    rw [build_loop] at h
    injection h with h2
    subst h2
    exact ⟨rfl, List.nodup_nil, by simp, by simp⟩
  | cons hd rest ih =>
    intro idx used payloads h
    obtain ⟨label, path⟩ := hd
    obtain ⟨pr, tail, hprep, htail, hpay⟩ := build_loop_cons_ok h
    obtain ⟨hlen, hnodup, hfresh, hsafe⟩ := ih (idx + 1)
      (unique_id (slugify label) used idx).2 tail htail
    have hfree := unique_id_fresh (slugify label) used idx
    subst hpay
    have htail_ne : ∀ k ∈ tail.map Prod.fst,
        k ≠ (unique_id (slugify label) used idx).1 ∧ k ∉ used := by
      intro k hk
      have := hfresh k hk
      rw [hfree.2] at this
      constructor
      · intro hcontra
        exact this (hcontra ▸ Finset.mem_insert_self _ _)
      · intro hcontra
        exact this (Finset.mem_insert_of_mem hcontra)
    refine ⟨by simpa using hlen, ?_, ?_, ?_⟩
    · rw [List.map_cons]
      exact List.nodup_cons.mpr
        ⟨fun hc => (htail_ne _ hc).1 rfl, hnodup⟩
    · intro k hk
      rw [List.map_cons] at hk
      rcases List.mem_cons.mp hk with rfl | hk'
      · exact hfree.1
      · exact (htail_ne k hk').2
    · intro k hk
      rw [List.map_cons] at hk
      rcases List.mem_cons.mp hk with rfl | hk'
      · exact unique_id_safe used idx (good_slug_key_safe (good_slug_slugify label))
      · exact hsafe k hk'

/-- **C10.**  `_slugify` always yields a non-empty string of lowercase
alphanumerics and interior hyphens (falling back to `"repo"`);
`_unique_id` always returns an identifier outside the used set and records
it; consequently the payload map of a successful build has exactly one
entry per dataset specification, with pairwise-distinct, non-empty,
identifier-safe keys — no payload is overwritten. -/
theorem C10_unique_key_invariants (env : Env) (fs : String → Option Csv)
    (specs : List (String × String)) (doc : Document)
    (hbuild : build_dashboard env fs specs = .ok doc) :
    (∀ v : String, good_slug (slugify v)) ∧
    (∀ (base : String) (used : Finset String) (seed : Nat),
      (unique_id base used seed).1 ∉ used ∧
      (unique_id base used seed).2 = insert (unique_id base used seed).1 used) ∧
    doc.payloads.length = specs.length ∧
    (doc.payloads.map Prod.fst).Nodup ∧
    (∀ k ∈ doc.payloads.map Prod.fst, key_safe k) := by
  obtain ⟨rid0, p0, tail, hloop, hdoc⟩ := build_ok_inv hbuild
  obtain ⟨hlen, hnodup, _, hsafe⟩ := build_loop_keys env fs specs 1 ∅ _ hloop
  subst hdoc
  exact ⟨good_slug_slugify, fun base used seed => unique_id_fresh base used seed,
    hlen, hnodup, hsafe⟩

/-- Witness for C10 on the two-dataset duplicate-label build. -/
theorem C10_unique_key_invariants_witness :
    c8_doc.payloads.length = 2 ∧
    (c8_doc.payloads.map Prod.fst).Nodup ∧
    good_slug (slugify "Repo") := by
  have h := C10_unique_key_invariants test_env test_fs
    [("Repo", "a.csv"), ("Repo", "irr.csv")] c8_doc rfl
  exact ⟨h.2.2.1, h.2.2.2.1, h.1 "Repo"⟩

/-! ## Supporting lemmas for the Rolling Series -/

lemma list_min_le_init (x : ℤ) (l : List ℤ) : list_min x l ≤ x := by
  induction l generalizing x with
  | nil => exact le_rfl
  | cons y t ih =>
    rw [list_min, List.foldl_cons]
    exact le_trans (ih (min x y)) (min_le_left x y)

lemma list_min_le_mem (x : ℤ) (l : List ℤ) : ∀ y ∈ l, list_min x l ≤ y := by
  induction l generalizing x with
  | nil => intro y hy; exact absurd hy (by simp)
  | cons z t ih =>
    intro y hy
    rw [list_min, List.foldl_cons]
    rcases List.mem_cons.mp hy with rfl | hy'
    · exact le_trans (list_min_le_init (min x y) t) (min_le_right x y)
    · exact ih (min x z) y hy'

lemma list_min_attained (x : ℤ) (l : List ℤ) :
    list_min x l = x ∨ list_min x l ∈ l := by
  induction l generalizing x with
  | nil => exact Or.inl rfl
  | cons y t ih =>
    rw [list_min, List.foldl_cons]
    rcases ih (min x y) with h | h
    · rcases min_cases x y with ⟨hm, _⟩ | ⟨hm, _⟩
      · exact Or.inl (by rw [list_min] at h; rw [h, hm])
      · refine Or.inr (List.mem_cons.mpr (Or.inl ?_))
        rw [list_min] at h
        rw [h, hm]
    · exact Or.inr (List.mem_cons.mpr (Or.inr (by rw [list_min] at h; exact h)))

lemma le_list_max_init (x : ℤ) (l : List ℤ) : x ≤ list_max x l := by
  induction l generalizing x with
  | nil => exact le_rfl
  | cons y t ih =>
    rw [list_max, List.foldl_cons]
    exact le_trans (le_max_left x y) (ih (max x y))

lemma mem_le_list_max (x : ℤ) (l : List ℤ) : ∀ y ∈ l, y ≤ list_max x l := by
  induction l generalizing x with
  | nil => intro y hy; exact absurd hy (by simp)
  | cons z t ih =>
    intro y hy
    rw [list_max, List.foldl_cons]
    rcases List.mem_cons.mp hy with rfl | hy'
    · exact le_trans (le_max_right x y) (le_list_max_init (max x y) t)
    · exact ih (max x z) y hy'

lemma list_max_attained (x : ℤ) (l : List ℤ) :
    list_max x l = x ∨ list_max x l ∈ l := by
  induction l generalizing x with
  | nil => exact Or.inl rfl
  | cons y t ih =>
    rw [list_max, List.foldl_cons]
    rcases ih (max x y) with h | h
    · rcases max_cases x y with ⟨hm, _⟩ | ⟨hm, _⟩
      · exact Or.inl (by rw [list_max] at h; rw [h, hm])
      · refine Or.inr (List.mem_cons.mpr (Or.inl ?_))
        rw [list_max] at h
        rw [h, hm]
    · exact Or.inr (List.mem_cons.mpr (Or.inr (by rw [list_max] at h; exact h)))

lemma mem_day_range {lo hi d : ℤ} : d ∈ day_range lo hi ↔ lo ≤ d ∧ d ≤ hi := by
  unfold day_range
  constructor
  · intro hd
    obtain ⟨i, hi', rfl⟩ := List.mem_map.mp hd
    have := List.mem_range.mp hi'
    omega
  · intro ⟨h1, h2⟩
    exact List.mem_map.mpr ⟨(d - lo).toNat, List.mem_range.mpr (by omega), by omega⟩

lemma day_range_chain (lo hi : ℤ) :
    List.Chain' (fun a b => b = a + 1) (day_range lo hi) := by
  unfold day_range
  rw [List.chain'_map]
  rw [List.chain'_iff_get]
  intro i hi'
  simp only [List.get_eq_getElem, List.getElem_range]
  omega

lemma dated_pairs_eq_nil_iff {l : List Record} :
    dated_pairs l = [] ↔ ∀ r ∈ l, r.date = none := by
  unfold dated_pairs
  rw [List.filterMap_eq_nil_iff]
  constructor
  · intro h r hr
    have := h r hr
    rwa [Option.map_eq_none'] at this
  · intro h r hr
    rw [h r hr]
    rfl

lemma mem_dated_pairs {l : List Record} {r : Record} {t : ℤ}
    (hr : r ∈ l) (ht : r.date = some t) : (day_of t, r) ∈ dated_pairs l := by
  unfold dated_pairs
  exact List.mem_filterMap.mpr ⟨r, hr, by rw [ht]; rfl⟩

lemma dated_pairs_day_some {l : List Record} {p : ℤ × Record}
    (hp : p ∈ dated_pairs l) : ∃ t, p.2.date = some t ∧ p.1 = day_of t := by
  unfold dated_pairs at hp
  obtain ⟨r, _, hr⟩ := List.mem_filterMap.mp hp
  cases ht : r.date with
  | none =>
    rw [ht] at hr
    cases hr
  | some t =>
    rw [ht] at hr
    injection hr with h2
    cases h2
    exact ⟨t, ht, rfl⟩

lemma rolling_of_isSome {l : List Record} :
    (rolling_of l).isSome ↔ dated_pairs l ≠ [] := by
  cases hd : dated_pairs l with
  | nil => simp [rolling_of, hd]
  | cons p ps => simp [rolling_of, hd]

/-- Inversion of `rolling_of`: what each field is. -/
lemma rolling_of_spec {l : List Record} {ro : Rolling}
    (h : rolling_of l = some ro) :
    ∃ p ps, dated_pairs l = p :: ps ∧
      ro.days = day_range (list_min p.1 (ps.map Prod.fst))
        (list_max p.1 (ps.map Prod.fst)) ∧
      ro.daily_sr = ro.days.map (fun d => mean_opt (daily_vals (p :: ps)
        (fun r => some r.survivalRate) d)) ∧
      ro.daily_ir = ro.days.map (fun d => mean_opt (daily_vals (p :: ps)
        Record.immediateReworkRate d)) ∧
      ro.roll_sr = roll_mean ro.daily_sr ∧
      ro.roll_ir = roll_mean ro.daily_ir := by
  cases hd : dated_pairs l with
  | nil =>
    rw [rolling_of, hd] at h
    cases h
  | cons p ps =>
    rw [rolling_of, hd] at h
    injection h with h2
    subst h2
    exact ⟨p, ps, rfl, rfl, rfl, rfl, rfl, rfl⟩

lemma roll_mean_length (xs : List (Option ℚ)) :
    (roll_mean xs).length = xs.length := by
  rw [roll_mean, List.length_map, List.length_range]

lemma mean_opt_ne_nil {l : List ℚ} (h : l ≠ []) :
    mean_opt l = some (l.sum / (l.length : ℚ)) := by
  rw [mean_opt, if_neg h]

/-- **C6, amended.**  The Rolling Series is computed iff some record has a
parseable timestamp.  When computed: the day index is consecutive (so days
with zero records are PRESENT in the resampled index), each index entry's
survival value is the mean over that day's records and is undefined
(`none`, not zero) for a day with no records, the smoothed series have one
entry per indexed day, and — because `min_periods=1` and `SurvivalRate` is
never missing — the survival rolling series starts with a defined value.
(The rework rolling series can be entirely `NaN`, e.g. when the column is
absent, as the counterexample shows.) -/
theorem C6_rolling (env : Env) (fs : String → Option Csv) (label path : String)
    (pr : Prepared) (h : prepare_dataset env fs label path = .ok pr) :
    (pr.rolling.isSome ↔ ∃ r ∈ pr.records, r.date.isSome) ∧
    (∀ ro, pr.rolling = some ro →
      List.Chain' (fun a b => b = a + 1) ro.days ∧
      (∀ r ∈ pr.records, ∀ t, r.date = some t → day_of t ∈ ro.days) ∧
      (∀ i d, ro.days.get? i = some d →
        ro.daily_sr.get? i = some (mean_opt (daily_vals (dated_pairs pr.records)
          (fun r => some r.survivalRate) d)) ∧
        ((∀ p ∈ dated_pairs pr.records, p.1 ≠ d) →
          ro.daily_sr.get? i = some none)) ∧
      ro.roll_sr.length = ro.days.length ∧
      ro.roll_ir.length = ro.days.length ∧
      (∃ q, ro.roll_sr.head? = some (some q))) := by
  obtain ⟨csv, hcsv, _, _, hpr⟩ := prepare_ok_iff.mp h
  have hroll : pr.rolling = rolling_of pr.records := by
    subst hpr
    rfl
  constructor
  · rw [hroll, rolling_of_isSome]
    rw [Ne, dated_pairs_eq_nil_iff]
    push_neg
    constructor
    · rintro ⟨r, hr, hne⟩
      exact ⟨r, hr, Option.isSome_iff_ne_none.mpr hne⟩
    · rintro ⟨r, hr, hne⟩
      exact ⟨r, hr, Option.isSome_iff_ne_none.mp hne⟩
  · intro ro hro
    rw [hroll] at hro
    obtain ⟨p, ps, hd, hdays, hdsr, hdir, hrsr, hrir⟩ := rolling_of_spec hro
    have hlo_le_hi : list_min p.1 (ps.map Prod.fst) ≤ list_max p.1 (ps.map Prod.fst) :=
      le_trans (list_min_le_init _ _) (le_list_max_init _ _)
    refine ⟨?_, ?_, ?_, ?_, ?_, ?_⟩
    · rw [hdays]
      exact day_range_chain _ _
    · intro r hr t ht
      have hmem := mem_dated_pairs hr ht
      rw [hd] at hmem
      rw [hdays]
      refine mem_day_range.mpr ⟨?_, ?_⟩
      · rcases List.mem_cons.mp hmem with heq | hmem'
        · rw [show day_of t = p.1 from congrArg Prod.fst heq]
          exact list_min_le_init _ _
        · exact list_min_le_mem _ _ _
            (List.mem_map.mpr ⟨_, hmem', rfl⟩)
      · rcases List.mem_cons.mp hmem with heq | hmem'
        · rw [show day_of t = p.1 from congrArg Prod.fst heq]
          exact le_list_max_init _ _
        · exact mem_le_list_max _ _ _
            (List.mem_map.mpr ⟨_, hmem', rfl⟩)
    · intro i d hi
      have hget : ro.daily_sr.get? i = some (mean_opt (daily_vals (p :: ps)
          (fun r => some r.survivalRate) d)) := by
        rw [hdsr, List.get?_map, hi]
        rfl
      rw [hd]
      refine ⟨hget, ?_⟩
      intro hnone
      have hfil : (p :: ps).filter (fun q => q.1 == d) = [] := by
        rw [List.filter_eq_nil_iff]
        intro q hq
        simpa using hnone q hq
      rw [hget]
      rw [daily_vals, hfil]
      rfl
    · rw [hrsr, roll_mean_length, hdsr, List.length_map]
    · rw [hrir, roll_mean_length, hdir, List.length_map]
    · -- the first smoothed survival value is defined
      have hn : (list_max p.1 (ps.map Prod.fst) - list_min p.1 (ps.map Prod.fst)
          + 1).toNat ≠ 0 := by omega
      have hd0 : ro.days.get? 0 = some (list_min p.1 (ps.map Prod.fst)) := by
        rw [hdays, day_range, List.get?_map]
        rw [List.get?_range (by omega)]
        simp
      -- the min day is attained, so its bin is non-empty
      have hattain : ∃ q ∈ p :: ps, q.1 = list_min p.1 (ps.map Prod.fst) := by
        rcases list_min_attained p.1 (ps.map Prod.fst) with hmin | hmin
        · exact ⟨p, List.mem_cons_self _ _, hmin.symm⟩
        · obtain ⟨q, hq, hq1⟩ := List.mem_map.mp hmin
          exact ⟨q, List.mem_cons_of_mem _ hq, hq1⟩
      obtain ⟨q, hq, hq1⟩ := hattain
      have hfil : q ∈ (p :: ps).filter (fun x => x.1 == list_min p.1 (ps.map Prod.fst)) :=
        List.mem_filter.mpr ⟨hq, by simp [hq1]⟩
      have hvals_ne : daily_vals (p :: ps) (fun r => some r.survivalRate)
          (list_min p.1 (ps.map Prod.fst)) ≠ [] := by
        rw [daily_vals]
        intro hcontra
        rw [List.filterMap_eq_nil_iff] at hcontra
        exact Option.noConfusion (hcontra q hfil)
      have hds0 : ro.daily_sr.get? 0 = some (mean_opt (daily_vals (p :: ps)
          (fun r => some r.survivalRate) (list_min p.1 (ps.map Prod.fst)))) := by
        rw [hdsr, List.get?_map, hd0]
        rfl
      obtain ⟨v, hv⟩ : ∃ v, mean_opt (daily_vals (p :: ps)
          (fun r => some r.survivalRate) (list_min p.1 (ps.map Prod.fst))) = some v :=
        ⟨_, mean_opt_ne_nil hvals_ne⟩
      -- unfold roll_mean at position 0
      have hlen_pos : 0 < ro.daily_sr.length := by
        rw [hdsr, List.length_map, hdays, day_range, List.length_map,
          List.length_range]
        omega
      cases hxs : ro.daily_sr with
      | nil =>
        rw [hxs] at hlen_pos
        simp at hlen_pos
      | cons x rest =>
        have hx : x = some v := by
          have := hds0
          rw [hxs] at this
          simp only [List.get?] at this
          injection this with h2
          rw [h2, hv]
        have hhead0 : (roll_mean (some v :: rest))[0]? = some (mean_opt [v]) := by
          rw [roll_mean, List.getElem?_map, List.getElem?_range (by simp)]
          rfl
        refine ⟨[v].sum / (([v].length : ℚ)), ?_⟩
        rw [hrsr, hxs, hx, List.head?_eq_getElem?, hhead0,
          mean_opt_ne_nil (by simp)]

/-- The two loaded records of `csv_a` (days 0 and 2). -/
lemma records_a_eval :
    (mk_prepared test_env "Repo" "a.csv" csv_a).records =
      [⟨some 0, 1/2, none, none, none, 1/2⟩,
       ⟨some 172800, 7/10, none, none, none, 7/10⟩] := by
  simp [mk_prepared, sort_records, record_of_row, cell_num, get_cell, to_numeric,
    to_datetime, test_env, csv_a, py_strip, date_rle,
    Rat.mkRat_eq_divInt, Rat.divInt_eq_div]

/-- The rolling series computed for `csv_a` (records on epoch days 0 and
2, no `ImmediateReworkRate` column). -/
def c6_roll : Rolling :=
  match (mk_prepared test_env "Repo" "a.csv" csv_a).rolling with
  | some ro => ro
  | none => ⟨[], [], [], [], [], [], []⟩

/-- **C6, counterexample.**  For records on days 0 and 2 only, the
resampled index is `[0, 1, 2]`: day 1 has zero records yet is PRESENT in
the index (with an undefined mean, refuting "days with zero records are
absent from the resampled index"), and the rework rolling series (column
absent, so wholly `NaN`) starts with `NaN`, refuting "the series has no
leading NaNs". -/
theorem C6_counterexample :
    prepare_dataset test_env test_fs "Repo" "a.csv" =
      .ok (mk_prepared test_env "Repo" "a.csv" csv_a) ∧
    (mk_prepared test_env "Repo" "a.csv" csv_a).rolling = some c6_roll ∧
    c6_roll.days = [0, 1, 2] ∧
    (∀ p ∈ dated_pairs (mk_prepared test_env "Repo" "a.csv" csv_a).records, p.1 ≠ 1) ∧
    c6_roll.daily_sr.get? 1 = some none ∧
    c6_roll.roll_ir.head? = some none := by
  exact ⟨prepare_ok_iff.mpr ⟨csv_a, by decide, by decide, by decide, rfl⟩,
    rfl, by decide, by decide, by decide, by decide⟩

/-- Witness for the amended C6 on `csv_a`: the rolling series exists, its
day index is consecutive, and its survival smoothing starts defined. -/
theorem C6_rolling_witness :
    (mk_prepared test_env "Repo" "a.csv" csv_a).rolling.isSome = true ∧
    List.Chain' (fun a b => b = a + 1) c6_roll.days ∧
    (c6_roll.roll_sr.head?).map Option.isSome = some true := by
  have h := C6_rolling test_env test_fs "Repo" "a.csv"
    (mk_prepared test_env "Repo" "a.csv" csv_a)
    (prepare_ok_iff.mpr ⟨csv_a, by decide, by decide, by decide, rfl⟩)
  have hsome : (mk_prepared test_env "Repo" "a.csv" csv_a).rolling = some c6_roll := rfl
  obtain ⟨hchain, _, _, _, _, hhead⟩ := h.2 c6_roll hsome
  obtain ⟨q, hq⟩ := hhead
  refine ⟨h.1.mpr ?_, hchain, ?_⟩
  · refine ⟨⟨some 0, 1/2, none, none, none, 1/2⟩, ?_, rfl⟩
    rw [records_a_eval]
    exact List.mem_cons_self _ _
  · rw [hq]
    rfl

end Dashboard
